import Mathlib

/-!
Shallow embedding of the geometry-to-viewport pipeline in
`src/scripts/extract-asgs.py`, with theorems settling the spec claims.

Python floats are modelled as rationals; Python `round(x, 2)` is modelled
by round-half-to-even at two decimals; Python exceptions are modelled by
`Except`.  The shapely call `geom.simplify(tol, preserve_topology=True)`
is an external library call and is modelled as an explicit parameter
`impl : Geometry → ℚ → Except String Geometry` (an erroring result stands
for a raised exception, caught by `simplify_geometry`).
-/

namespace ExtractAsgs

/-- Round a rational to the nearest integer, ties to even
(the rounding mode of Python's builtin `round`). -/
def roundHalfEven (q : ℚ) : ℤ :=
  if q - ⌊q⌋ < 1/2 then ⌊q⌋
  else if 1/2 < q - ⌊q⌋ then ⌊q⌋ + 1
  else if ⌊q⌋ % 2 = 0 then ⌊q⌋ else ⌊q⌋ + 1

/-- Python `round(q, 2)`: round to two decimal places. -/
def round2 (q : ℚ) : ℚ := (roundHalfEven (q * 100) : ℚ) / 100

/-- The bounding-box dictionary `AUSTRALIA_BBOX` of the script. -/
structure BBox where
  minLon : ℚ
  maxLon : ℚ
  minLat : ℚ
  maxLat : ℚ
deriving DecidableEq

def AUSTRALIA_BBOX : BBox := { minLon := 113, maxLon := 154, minLat := -44, maxLat := -10 }

def SVG_WIDTH : ℚ := 1000

def SVG_HEIGHT : ℚ := 760

/-- `project_to_svg(lon, lat)` from the script: bbox fit into the
SVG viewport, Y flipped, both components rounded to 2 decimals. -/
def project_to_svg (lon lat : ℚ) : ℚ × ℚ :=
  (round2 ((lon - AUSTRALIA_BBOX.minLon) / (AUSTRALIA_BBOX.maxLon - AUSTRALIA_BBOX.minLon) * SVG_WIDTH),
   round2 ((1 - (lat - AUSTRALIA_BBOX.minLat) / (AUSTRALIA_BBOX.maxLat - AUSTRALIA_BBOX.minLat)) * SVG_HEIGHT))

/-- A shapely polygon: stored exterior ring plus interior rings (holes).
Rings are stored closed (first coordinate repeated at the end), as
shapely stores them; `exterior.coords` returns the stored list. -/
structure Polygon where
  exterior : List (ℚ × ℚ)
  holes : List (List (ℚ × ℚ))
deriving DecidableEq

/-- The geometry values the script can receive: a Polygon, a
MultiPolygon, or any other geometry type (carrying its `geom_type`
string and its `is_empty` flag). -/
inductive Geometry where
  | polygon : Polygon → Geometry
  | multiPolygon : List Polygon → Geometry
  | other : String → Bool → Geometry
deriving DecidableEq

/-- shapely `is_empty`. -/
def geomIsEmpty : Geometry → Bool
  | Geometry.polygon p => p.exterior.isEmpty
  | Geometry.multiPolygon polys => polys.all (fun p => p.exterior.isEmpty)
  | Geometry.other _ e => e

/-- Twice the signed shoelace area of a stored (closed) ring, summed
over consecutive coordinate pairs as GEOS does. -/
def ringDoubleArea : List (ℚ × ℚ) → ℚ
  | [] => 0
  | [_] => 0
  | p :: q :: rest => (p.1 * q.2 - q.1 * p.2) + ringDoubleArea (q :: rest)

/-- GEOS area of a single ring: absolute shoelace area. -/
def ringArea (ring : List (ℚ × ℚ)) : ℚ := |ringDoubleArea ring| / 2

/-- shapely `Polygon.area` as computed by GEOS: area of the exterior
ring minus the areas of the holes. -/
def polyArea (p : Polygon) : ℚ := ringArea p.exterior - (p.holes.map ringArea).sum

/-- Python `max(x :: xs, key=f)`: the FIRST element with maximal key
(CPython replaces the running maximum only on strict increase). -/
def maxByKey {α : Type} (f : α → ℚ) (x : α) (xs : List α) : α :=
  xs.foldl (fun best p => if f best < f p then p else best) x

/-- `extract_polygon_coords(geom)` from the script.  A Polygon yields
its stored exterior coordinates; a MultiPolygon yields the exterior of
the constituent with maximal `area` via Python `max` — which raises
`ValueError` on an empty sequence, modelled as `Except.error`; any other
geometry type yields `[]`. -/
def extract_polygon_coords : Geometry → Except String (List (ℚ × ℚ))
  | Geometry.polygon p => Except.ok p.exterior
  | Geometry.multiPolygon [] => Except.error "max() arg is an empty sequence"
  | Geometry.multiPolygon (p :: ps) => Except.ok (maxByKey polyArea p ps).exterior
  | Geometry.other _ _ => Except.ok []

/-- `simplify_geometry(geom, tolerance)` from the script: try the
shapely call (`impl`); on any exception return the input unchanged. -/
def simplify_geometry (impl : Geometry → ℚ → Except String Geometry)
    (geom : Geometry) (tolerance : ℚ) : Geometry :=
  match impl geom tolerance with
  | Except.ok g => g
  | Except.error _ => geom

/-- First-match association-list lookup, modelling pandas
`row.get(key, default)` (the default is supplied via `Option.getD`). -/
def lookupAttr (key : String) : List (String × String) → Option String
  | [] => none
  | (k, v) :: rest => if k = key then some v else lookupAttr key rest

/-- One attributed input region: its attribute row and its geometry
(`row.geometry`, possibly `None`). -/
structure Row where
  attrs : List (String × String)
  geometry : Option Geometry
deriving DecidableEq

def Row.get (row : Row) (key : String) : Option String :=
  lookupAttr key row.attrs

/-- `row.get(f"{level}_CODE_2021", row.get("code", f"UNKNOWN_{idx}"))`. -/
def resolveCode (level : String) (row : Row) (idx : ℕ) : String :=
  (row.get (level ++ "_CODE_2021")).getD ((row.get "code").getD ("UNKNOWN_" ++ toString idx))

/-- `row.get(f"{level}_NAME_2021", row.get("name", code))`. -/
def resolveName (level : String) (row : Row) (code : String) : String :=
  (row.get (level ++ "_NAME_2021")).getD ((row.get "name").getD code)

/-- `row.get("STE_CODE_2021", row.get("state", "UNKNOWN"))`. -/
def resolveState (row : Row) : String :=
  (row.get "STE_CODE_2021").getD ((row.get "state").getD "UNKNOWN")

/-- `str(row.get("SA4_CODE_2021", "")) if level == "SA3" else None`. -/
def resolveParentSa4 (level : String) (row : Row) : Option String :=
  if level = "SA3" then some ((row.get "SA4_CODE_2021").getD "") else none

/-- `parent_sa4 if parent_sa4 else None`: Python truthiness maps the
empty string (and None) to None. -/
def finalParent : Option String → Option String
  | some s => if s = "" then none else some s
  | none => none

/-- One output feature record. -/
structure Feature where
  code : String
  name : String
  state : String
  parentSa4 : Option String
  polygon : List (ℚ × ℚ)
deriving DecidableEq

/-- One iteration of the loop body of `process_geometry` for the row at
dataframe index `idx`: `Except.ok none` models `continue`, `Except.ok
(some f)` models `features.append(f)`, `Except.error` models an
uncaught exception escaping the loop. -/
def processRow (impl : Geometry → ℚ → Except String Geometry) (level : String)
    (idx : ℕ) (row : Row) : Except String (Option Feature) :=
  match row.geometry with
  | none => Except.ok none
  | some geom0 =>
    if geomIsEmpty geom0 then Except.ok none
    else
      match extract_polygon_coords (simplify_geometry impl geom0 (1/100)) with
      | Except.error e => Except.error e
      | Except.ok coords =>
        if coords.length < 3 then Except.ok none
        else Except.ok (some {
          code := resolveCode level row idx,
          name := resolveName level row (resolveCode level row idx),
          state := resolveState row,
          parentSa4 := finalParent (resolveParentSa4 level row),
          polygon := coords.map (fun c => project_to_svg c.1 c.2) })

/-- The loop of `process_geometry`, starting at index `idx`. -/
def processAux (impl : Geometry → ℚ → Except String Geometry) (level : String) :
    ℕ → List Row → Except String (List Feature)
  | _, [] => Except.ok []
  | idx, row :: rest =>
    match processRow impl level idx row with
    | Except.error e => Except.error e
    | Except.ok none => processAux impl level (idx + 1) rest
    | Except.ok (some f) => (processAux impl level (idx + 1) rest).map (fun fs => f :: fs)

/-- `process_geometry(gdf, level)` from the script: iterate the rows in
order (dataframe index = position for the default range index) and
collect the emitted features. -/
def process_geometry (impl : Geometry → ℚ → Except String Geometry)
    (rows : List Row) (level : String) : Except String (List Feature) :=
  processAux impl level 0 rows

/-- The feature emitted by one loop iteration, if any. -/
def emittedFeature : Except String (Option Feature) → Option Feature
  | Except.ok (some f) => some f
  | _ => none

/-- Whether a loop iteration completed without raising. -/
def exceptIsOk : Except String (Option Feature) → Bool
  | Except.ok _ => true
  | Except.error _ => false

/-! Concrete data used by the scenario conjuncts, counterexamples and
witnesses. -/

/-- A simplifier implementation that returns its input unchanged. -/
def implId : Geometry → ℚ → Except String Geometry := fun g _ => Except.ok g

/-- A simplifier implementation that always raises (the fallback path
of `simplify_geometry`). -/
def implFail : Geometry → ℚ → Except String Geometry := fun _ _ => Except.error "TopologyException"

/-- A closed triangular ring spanning the bounding box, whose vertices
project to exact viewport coordinates. -/
def witnessRing : List (ℚ × ℚ) := [(113,-10),(154,-10),(113,-44),(113,-10)]

/-- A region with no attribute columns at all. -/
def noAttrRow : Row :=
  { attrs := [], geometry := some (Geometry.polygon { exterior := witnessRing, holes := [] }) }

/-- The feature `process_geometry` emits for `noAttrRow` at index 7. -/
def featUnknown7 : Feature :=
  { code := "UNKNOWN_7", name := "UNKNOWN_7", state := "UNKNOWN", parentSa4 := none,
    polygon := [(0,0),(1000,0),(0,760),(0,0)] }

/-- A closed degenerate ring: five stored coordinates but only two
distinct vertices. -/
def cexRing : List (ℚ × ℚ) := [(0,0),(1,1),(0,0),(1,1),(0,0)]

/-- A region whose polygon is the degenerate two-vertex ring. -/
def cex3Row : Row :=
  { attrs := [], geometry := some (Geometry.polygon { exterior := cexRing, holes := [] }) }

/-- A region whose polygon exterior has only two stored coordinates. -/
def twoCoordRow : Row :=
  { attrs := [], geometry := some (Geometry.polygon { exterior := [(0,0),(1,1)], holes := [] }) }

/-- A 4x4 square (exterior-ring area 16) with a 3x3 hole, so its
shapely `area` is 7. -/
def holedBig : Polygon :=
  { exterior := [(0,0),(4,0),(4,4),(0,4),(0,0)],
    holes := [[(1/2,1/2),(7/2,1/2),(7/2,7/2),(1/2,7/2),(1/2,1/2)]] }

/-- A solid 3x3 square: exterior-ring area 9, shapely `area` 9. -/
def solidSmall : Polygon :=
  { exterior := [(10,0),(13,0),(13,3),(10,3),(10,0)], holes := [] }

/-- Hole-free rectangle of area 5. -/
def poly5 : Polygon := { exterior := [(0,0),(5,0),(5,1),(0,1),(0,0)], holes := [] }

/-- Hole-free rectangle of area 20. -/
def poly20 : Polygon := { exterior := [(0,0),(5,0),(5,4),(0,4),(0,0)], holes := [] }

/-- Hole-free rectangle of area 3. -/
def poly3 : Polygon := { exterior := [(0,0),(3,0),(3,1),(0,1),(0,0)], holes := [] }

/-- A region whose level-specific code column is present but holds the
empty string. -/
def cex8Row : Row :=
  { attrs := [("SA3_CODE_2021", "")],
    geometry := some (Geometry.polygon { exterior := witnessRing, holes := [] }) }

/-- A region with non-empty attribute values. -/
def c8GoodRow : Row :=
  { attrs := [("SA3_CODE_2021", "30101"), ("STE_CODE_2021", "3")],
    geometry := some (Geometry.polygon { exterior := witnessRing, holes := [] }) }

/-- An SA3 region carrying a non-empty parent SA4 code. -/
def c9Row : Row :=
  { attrs := [("SA4_CODE_2021", "401")],
    geometry := some (Geometry.polygon { exterior := witnessRing, holes := [] }) }

/-- The feature `process_geometry` emits for `c9Row` at index 0. -/
def featC9 : Feature :=
  { code := "UNKNOWN_0", name := "UNKNOWN_0", state := "UNKNOWN", parentSa4 := some "401",
    polygon := [(0,0),(1000,0),(0,760),(0,0)] }

/-- `noAttrRow` with an attribute row added, same geometry. -/
def altAttrRow : Row :=
  { attrs := [("code", "X")], geometry := some (Geometry.polygon { exterior := witnessRing, holes := [] }) }

/-! Infrastructure lemmas. -/

theorem lookupAttr_mem {key v : String} : ∀ {l : List (String × String)},
    lookupAttr key l = some v → (key, v) ∈ l := by
  intro l
  induction l with
  | nil => intro h; simp [lookupAttr] at h
  | cons kv rest ih =>
    intro h
    unfold lookupAttr at h
    by_cases hk : kv.1 = key
    · rw [if_pos hk] at h
      obtain rfl : kv.2 = v := by injection h
      have hkv : kv = (key, kv.2) := by rw [← hk]
      rw [← hkv]
      exact List.mem_cons_self _ _
    · rw [if_neg hk] at h
      exact List.mem_cons_of_mem _ (ih h)

theorem maxByKey_split {α : Type} (f : α → ℚ) :
    ∀ (xs : List α) (x : α), ∃ l1 l2, x :: xs = l1 ++ maxByKey f x xs :: l2 ∧
      (∀ p ∈ x :: xs, f p ≤ f (maxByKey f x xs)) ∧
      (∀ p ∈ l1, f p < f (maxByKey f x xs)) := by
  intro xs
  induction xs with
  | nil =>
    intro x
    refine ⟨[], [], rfl, ?_, by simp⟩
    intro p hp
    simp [maxByKey] at hp ⊢
    rw [hp]
  | cons y ys ih =>
    intro x
    by_cases hxy : f x < f y
    · have hstep : maxByKey f x (y :: ys) = maxByKey f y ys := by
        simp [maxByKey, List.foldl_cons, if_pos hxy]
      obtain ⟨l1, l2, heq, hmax, hstrict⟩ := ih y
      refine ⟨x :: l1, l2, ?_, ?_, ?_⟩
      · rw [hstep, List.cons_append, ← heq]
      · intro p hp
        rw [hstep]
        rcases List.mem_cons.mp hp with rfl | hp2
        · exact le_of_lt (lt_of_lt_of_le hxy (hmax y (List.mem_cons_self y ys)))
        · exact hmax p hp2
      · intro p hp
        rw [hstep]
        rcases List.mem_cons.mp hp with rfl | hp2
        · exact lt_of_lt_of_le hxy (hmax y (List.mem_cons_self y ys))
        · exact hstrict p hp2
    · have hstep : maxByKey f x (y :: ys) = maxByKey f x ys := by
        simp [maxByKey, List.foldl_cons, if_neg hxy]
      obtain ⟨l1, l2, heq, hmax, hstrict⟩ := ih x
      cases l1 with
      | nil =>
        obtain ⟨hx, hys⟩ : x = maxByKey f x ys ∧ ys = l2 := by
          constructor <;> injection heq
        refine ⟨[], y :: ys, ?_, ?_, by simp⟩
        · rw [hstep, ← hx]
          rfl
        · intro p hp
          rw [hstep]
          rcases List.mem_cons.mp hp with rfl | hp2
          · exact hmax p (List.mem_cons_self p ys)
          rcases List.mem_cons.mp hp2 with rfl | hp3
          · exact le_trans (not_lt.mp hxy) (hmax x (List.mem_cons_self x ys))
          · exact hmax p (List.mem_cons_of_mem _ hp3)
      | cons a t =>
        obtain ⟨hx, hys⟩ : x = a ∧ ys = t ++ maxByKey f x ys :: l2 := by
          constructor <;> injection heq
        have hxl1 : f x < f (maxByKey f x ys) := by
          apply hstrict
          rw [hx]
          exact List.mem_cons_self a t
        refine ⟨x :: y :: t, l2, ?_, ?_, ?_⟩
        · rw [hstep]
          simp only [List.cons_append]
          rw [← hys]
        · intro p hp
          rw [hstep]
          rcases List.mem_cons.mp hp with rfl | hp2
          · exact le_of_lt hxl1
          rcases List.mem_cons.mp hp2 with rfl | hp3
          · exact le_trans (not_lt.mp hxy) (le_of_lt hxl1)
          · exact hmax p (List.mem_cons_of_mem _ hp3)
        · intro p hp
          rw [hstep]
          rcases List.mem_cons.mp hp with rfl | hp2
          · exact hxl1
          rcases List.mem_cons.mp hp2 with rfl | hp3
          · exact lt_of_le_of_lt (not_lt.mp hxy) hxl1
          · exact hstrict p (List.mem_cons_of_mem _ hp3)

theorem maxByKey_mem {α : Type} (f : α → ℚ) (x : α) (xs : List α) :
    maxByKey f x xs ∈ x :: xs := by
  obtain ⟨l1, l2, heq, -, -⟩ := maxByKey_split f xs x
  rw [heq]
  exact List.mem_append_right _ (List.mem_cons_self _ _)

theorem roundHalfEven_nonneg {q : ℚ} (h : 0 ≤ q) : 0 ≤ roundHalfEven q := by
  have h0 : (0 : ℤ) ≤ ⌊q⌋ := Int.floor_nonneg.mpr h
  unfold roundHalfEven
  split
  · exact h0
  · split
    · omega
    · split <;> omega

theorem roundHalfEven_le {q : ℚ} {n : ℤ} (h : q ≤ (n : ℚ)) : roundHalfEven q ≤ n := by
  have hf : ⌊q⌋ ≤ n := by
    have h2 := Int.floor_le_floor h
    rwa [Int.floor_intCast] at h2
  unfold roundHalfEven
  split
  · exact hf
  next h1 =>
    have h1a : (1 : ℚ)/2 ≤ q - ⌊q⌋ := not_lt.mp h1
    have hlt : ⌊q⌋ < n := by
      rcases lt_or_eq_of_le hf with hlt | heq
      · exact hlt
      · exfalso
        have hcast : ((⌊q⌋ : ℤ) : ℚ) = (n : ℚ) := by exact_mod_cast heq
        rw [hcast] at h1a
        linarith
    split
    · omega
    · split <;> omega

theorem round2_nonneg {q : ℚ} (h : 0 ≤ q) : 0 ≤ round2 q := by
  unfold round2
  have h1 : (0 : ℚ) ≤ (roundHalfEven (q * 100) : ℚ) := by
    exact_mod_cast roundHalfEven_nonneg (by linarith)
  linarith

theorem round2_le {q : ℚ} {n : ℤ} (h : q * 100 ≤ (n : ℚ)) : round2 q ≤ (n : ℚ)/100 := by
  unfold round2
  have h1 : (roundHalfEven (q * 100) : ℚ) ≤ (n : ℚ) := by
    exact_mod_cast roundHalfEven_le h
  linarith

theorem finalParent_ne_empty : ∀ o : Option String, finalParent o ≠ some "" := by
  intro o
  cases o with
  | none => simp [finalParent]
  | some s =>
    unfold finalParent
    split
    · simp
    next hs => simp [hs]

/-- Inversion for one loop iteration that appended a feature: the
feature's fields are the resolved attributes and the projected ring,
and its polygon has at least three points. -/
theorem processRow_eq_ok_some {impl : Geometry → ℚ → Except String Geometry}
    {level : String} {idx : ℕ} {row : Row} {f : Feature}
    (h : processRow impl level idx row = Except.ok (some f)) :
    f.code = resolveCode level row idx ∧
    f.name = resolveName level row (resolveCode level row idx) ∧
    f.state = resolveState row ∧
    f.parentSa4 = finalParent (resolveParentSa4 level row) ∧
    3 ≤ f.polygon.length := by
  unfold processRow at h
  cases hg : row.geometry with
  | none =>
    rw [hg] at h
    simp at h
  | some g =>
    rw [hg] at h
    dsimp only at h
    by_cases he : geomIsEmpty g = true
    · rw [if_pos he] at h
      simp at h
    · rw [if_neg he] at h
      cases hx : extract_polygon_coords (simplify_geometry impl g (1/100)) with
      | error e =>
        rw [hx] at h
        simp at h
      | ok coords =>
        rw [hx] at h
        dsimp only at h
        by_cases hlen : coords.length < 3
        · rw [if_pos hlen] at h
          simp at h
        · rw [if_neg hlen] at h
          simp only [Except.ok.injEq, Option.some.injEq] at h
          subst h
          refine ⟨rfl, rfl, rfl, rfl, ?_⟩
          simp only [List.length_map]
          omega

/-- Every feature in the batch output was appended by some iteration. -/
theorem processAux_mem {impl : Geometry → ℚ → Except String Geometry} {level : String} :
    ∀ (idx : ℕ) (rows : List Row) (feats : List Feature),
      processAux impl level idx rows = Except.ok feats →
      ∀ f ∈ feats, ∃ i row, row ∈ rows ∧ processRow impl level i row = Except.ok (some f) := by
  intro idx rows
  induction rows generalizing idx with
  | nil =>
    intro feats h f hf
    unfold processAux at h
    simp only [Except.ok.injEq] at h
    subst h
    simp at hf
  | cons row rest ih =>
    intro feats h f hf
    unfold processAux at h
    cases hr : processRow impl level idx row with
    | error e =>
      rw [hr] at h
      simp at h
    | ok o =>
      rw [hr] at h
      cases o with
      | none =>
        obtain ⟨i, r, hmem, hpr⟩ := ih (idx + 1) feats h f hf
        exact ⟨i, r, List.mem_cons_of_mem _ hmem, hpr⟩
      | some g =>
        cases hrest : processAux impl level (idx + 1) rest with
        | error e =>
          rw [hrest] at h
          simp [Except.map] at h
        | ok fs =>
          rw [hrest] at h
          simp only [Except.map, Except.ok.injEq] at h
          subst h
          rcases List.mem_cons.mp hf with rfl | hf2
          · exact ⟨idx, row, List.mem_cons_self _ _, hr⟩
          · obtain ⟨i, r, hmem, hpr⟩ := ih (idx + 1) fs hrest f hf2
            exact ⟨i, r, List.mem_cons_of_mem _ hmem, hpr⟩

/-- Evaluation of the pipeline on the attribute-free region at index 7. -/
theorem processRow_noAttrRow_eval :
    processRow implId "SA3" 7 noAttrRow = Except.ok (some featUnknown7) := by
  norm_num [processRow, noAttrRow, implId, witnessRing, geomIsEmpty, simplify_geometry,
    extract_polygon_coords, resolveCode, resolveName, resolveState, resolveParentSa4,
    finalParent, Row.get, lookupAttr, project_to_svg, round2, roundHalfEven,
    AUSTRALIA_BBOX, SVG_WIDTH, SVG_HEIGHT, featUnknown7]
  decide

/-- Evaluation of the pipeline on the SA3 region carrying a parent
SA4 code. -/
theorem processRow_c9Row_eval :
    processRow implId "SA3" 0 c9Row = Except.ok (some featC9) := by
  norm_num [processRow, c9Row, implId, witnessRing, geomIsEmpty, simplify_geometry,
    extract_polygon_coords, resolveCode, resolveName, resolveState, resolveParentSa4,
    finalParent, Row.get, lookupAttr, project_to_svg, round2, roundHalfEven,
    AUSTRALIA_BBOX, SVG_WIDTH, SVG_HEIGHT, featC9]
  decide

/-! The claims. -/

/-- C1: for every longitude/latitude pair, `project(lon, lat)` returns
exactly `(round2((lon - minLon) / (maxLon - minLon) * viewportWidth),
round2((1 - (lat - minLat) / (maxLat - minLat)) * viewportHeight))` with
both components rounded to 2 decimal places; in particular, with the
default bounding box and viewport 1000x760,
`project(133.5, -27) = (500.0, 380.0)`. -/
theorem claim1_projection_formula :
    (∀ lon lat : ℚ, project_to_svg lon lat =
      (round2 ((lon - 113) / (154 - 113) * 1000),
       round2 ((1 - (lat - (-44)) / ((-10) - (-44))) * 760))) ∧
    project_to_svg 133.5 (-27) = (500, 380) := by
  constructor
  · intro lon lat
    rfl
  · norm_num [project_to_svg, round2, roundHalfEven, AUSTRALIA_BBOX, SVG_WIDTH, SVG_HEIGHT]

/-- C4: for every ring and tolerance, if the underlying simplification
step raises any exception, `simplify` returns the original input
geometry unchanged and never propagates the exception. -/
theorem claim4_simplify_fallback (impl : Geometry → ℚ → Except String Geometry)
    (geom : Geometry) (tolerance : ℚ) (msg : String)
    (h : impl geom tolerance = Except.error msg) :
    simplify_geometry impl geom tolerance = geom := by
  unfold simplify_geometry
  rw [h]

theorem claim4_witness :
    implFail (Geometry.multiPolygon []) (1/100) = Except.error "TopologyException" ∧
    simplify_geometry implFail (Geometry.multiPolygon []) (1/100) = Geometry.multiPolygon [] :=
  ⟨rfl, claim4_simplify_fallback implFail (Geometry.multiPolygon []) (1/100) "TopologyException" rfl⟩

/-- C5 counterexample: the empty MultiPolygon is an empty geometry, yet
the ring selector raises `ValueError` from `max()` on an empty sequence
instead of returning an empty ring. -/
theorem claim5_counterexample :
    geomIsEmpty (Geometry.multiPolygon []) = true ∧
    extract_polygon_coords (Geometry.multiPolygon []) =
      Except.error "max() arg is an empty sequence" :=
  ⟨rfl, rfl⟩

/-- C5 (amended): for every input geometry of an unsupported type the
ring selector returns an empty ring, and so for every empty geometry
other than a MultiPolygon with zero parts; a MultiPolygon with zero
parts (which is empty) instead raises `ValueError` from `max()`. -/
theorem claim5_amended_empty_ring :
    (∀ (t : String) (e : Bool), extract_polygon_coords (Geometry.other t e) = Except.ok []) ∧
    (∀ g : Geometry, geomIsEmpty g = true → g ≠ Geometry.multiPolygon [] →
      extract_polygon_coords g = Except.ok []) ∧
    extract_polygon_coords (Geometry.multiPolygon []) =
      Except.error "max() arg is an empty sequence" := by
  refine ⟨fun t e => rfl, ?_, rfl⟩
  intro g hemp hne
  cases g with
  | polygon p =>
    have hext : p.exterior = [] := by
      have h1 : p.exterior.isEmpty = true := by simpa [geomIsEmpty] using hemp
      cases hpe : p.exterior with
      | nil => rfl
      | cons c cs => rw [hpe] at h1; simp [List.isEmpty] at h1
    simp [extract_polygon_coords, hext]
  | multiPolygon polys =>
    cases polys with
    | nil => exact absurd rfl hne
    | cons p ps =>
      have hall : ∀ q ∈ p :: ps, q.exterior = [] := by
        intro q hq
        have h1 : q.exterior.isEmpty = true := by
          have h2 : (p :: ps).all (fun r => r.exterior.isEmpty) = true := by
            simpa [geomIsEmpty] using hemp
          exact List.all_eq_true.mp h2 q hq
        cases hpe : q.exterior with
        | nil => rfl
        | cons c cs => rw [hpe] at h1; simp [List.isEmpty] at h1
      have hmem := maxByKey_mem polyArea p ps
      simp [extract_polygon_coords, hall _ hmem]
  | other t e => rfl

theorem claim5_witness :
    geomIsEmpty (Geometry.polygon { exterior := [], holes := [] }) = true ∧
    Geometry.polygon { exterior := [], holes := [] } ≠ Geometry.multiPolygon [] ∧
    extract_polygon_coords (Geometry.polygon { exterior := [], holes := [] }) = Except.ok [] :=
  ⟨rfl, by simp,
   claim5_amended_empty_ring.2.1 (Geometry.polygon { exterior := [], holes := [] }) rfl (by simp)⟩

/-- C6: for every `(lon, lat)` inside the configured bounding box,
`project(lon, lat) = (x, y)` satisfies `0 ≤ x ≤ 1000` and
`0 ≤ y ≤ 760`; no clamping is applied, so an input outside the box
(e.g. lon = 195) maps outside that range. -/
theorem claim6_projection_bounds (lon lat : ℚ)
    (h1 : 113 ≤ lon) (h2 : lon ≤ 154) (h3 : -44 ≤ lat) (h4 : lat ≤ -10) :
    (0 ≤ (project_to_svg lon lat).1 ∧ (project_to_svg lon lat).1 ≤ 1000 ∧
     0 ≤ (project_to_svg lon lat).2 ∧ (project_to_svg lon lat).2 ≤ 760) ∧
    1000 < (project_to_svg 195 (-27)).1 := by
  constructor
  · have hx : (project_to_svg lon lat).1 = round2 ((lon - 113) / 41 * 1000) := by
      norm_num [project_to_svg, AUSTRALIA_BBOX, SVG_WIDTH]
    have hy : (project_to_svg lon lat).2 = round2 ((1 - (lat + 44) / 34) * 760) := by
      norm_num [project_to_svg, AUSTRALIA_BBOX, SVG_HEIGHT]
    have hx1 : 0 ≤ (lon - 113) / 41 * 1000 :=
      mul_nonneg (div_nonneg (by linarith) (by norm_num)) (by norm_num)
    have hx2 : (lon - 113) / 41 * 1000 ≤ 1000 := by
      have hdiv : (lon - 113) / 41 ≤ 1 := by
        rw [div_le_one (by norm_num : (0:ℚ) < 41)]
        linarith
      linarith
    have hy0 : 0 ≤ (lat + 44) / 34 := div_nonneg (by linarith) (by norm_num)
    have hy1 : (lat + 44) / 34 ≤ 1 := by
      rw [div_le_one (by norm_num : (0:ℚ) < 34)]
      linarith
    have hyl : 0 ≤ (1 - (lat + 44) / 34) * 760 := by nlinarith
    have hyu : (1 - (lat + 44) / 34) * 760 ≤ 760 := by nlinarith
    refine ⟨?_, ?_, ?_, ?_⟩
    · rw [hx]
      exact round2_nonneg hx1
    · rw [hx]
      have hr := round2_le (q := (lon - 113) / 41 * 1000) (n := 100000) (by push_cast; linarith)
      have : ((100000 : ℤ) : ℚ) / 100 = 1000 := by norm_num
      linarith
    · rw [hy]
      exact round2_nonneg hyl
    · rw [hy]
      have hr := round2_le (q := (1 - (lat + 44) / 34) * 760) (n := 76000) (by push_cast; linarith)
      have : ((76000 : ℤ) : ℚ) / 100 = 760 := by norm_num
      linarith
  · norm_num [project_to_svg, round2, roundHalfEven, AUSTRALIA_BBOX, SVG_WIDTH, SVG_HEIGHT]

theorem claim6_witness :
    0 ≤ (project_to_svg 133.5 (-27)).1 ∧ (project_to_svg 133.5 (-27)).1 ≤ 1000 ∧
    0 ≤ (project_to_svg 133.5 (-27)).2 ∧ (project_to_svg 133.5 (-27)).2 ≤ 760 :=
  (claim6_projection_bounds 133.5 (-27) (by norm_num) (by norm_num) (by norm_num) (by norm_num)).1

/-- C2 counterexample: the selector picks by shapely `area` (holes
subtracted), not by exterior-ring area: on `[holedBig, solidSmall]` the
code returns `solidSmall`'s ring although `holedBig`'s exterior ring
has strictly larger planar area. -/
theorem claim2_counterexample :
    extract_polygon_coords (Geometry.multiPolygon [holedBig, solidSmall]) =
      Except.ok solidSmall.exterior ∧
    ringArea solidSmall.exterior < ringArea holedBig.exterior ∧
    holedBig.exterior ≠ solidSmall.exterior := by
  refine ⟨?_, ?_, ?_⟩
  · norm_num [extract_polygon_coords, maxByKey, polyArea, ringArea, ringDoubleArea,
      holedBig, solidSmall]
  · norm_num [ringArea, ringDoubleArea, holedBig, solidSmall]
  · norm_num [holedBig, solidSmall]

/-- C2 (amended): for every MultiPolygon input, the ring selector
returns the exterior ring of the constituent polygon whose shapely
`area` (exterior-ring area minus hole areas) is maximal, ties broken by
first-encountered order; on hole-free polygons of areas [5, 20, 3] it
returns the area-20 ring regardless of input order. -/
theorem claim2_amended_largest_by_net_area :
    (∀ (x : Polygon) (xs : List Polygon), ∃ l1 l2,
      extract_polygon_coords (Geometry.multiPolygon (x :: xs)) =
        Except.ok (maxByKey polyArea x xs).exterior ∧
      x :: xs = l1 ++ maxByKey polyArea x xs :: l2 ∧
      (∀ p ∈ x :: xs, polyArea p ≤ polyArea (maxByKey polyArea x xs)) ∧
      (∀ p ∈ l1, polyArea p < polyArea (maxByKey polyArea x xs))) ∧
    (polyArea poly5 = 5 ∧ polyArea poly20 = 20 ∧ polyArea poly3 = 3 ∧
     extract_polygon_coords (Geometry.multiPolygon [poly5, poly20, poly3]) = Except.ok poly20.exterior ∧
     extract_polygon_coords (Geometry.multiPolygon [poly5, poly3, poly20]) = Except.ok poly20.exterior ∧
     extract_polygon_coords (Geometry.multiPolygon [poly20, poly5, poly3]) = Except.ok poly20.exterior ∧
     extract_polygon_coords (Geometry.multiPolygon [poly20, poly3, poly5]) = Except.ok poly20.exterior ∧
     extract_polygon_coords (Geometry.multiPolygon [poly3, poly5, poly20]) = Except.ok poly20.exterior ∧
     extract_polygon_coords (Geometry.multiPolygon [poly3, poly20, poly5]) = Except.ok poly20.exterior) := by
  constructor
  · intro x xs
    obtain ⟨l1, l2, heq, hmax, hstrict⟩ := maxByKey_split polyArea xs x
    exact ⟨l1, l2, rfl, heq, hmax, hstrict⟩
  · refine ⟨?_, ?_, ?_, ?_, ?_, ?_, ?_, ?_, ?_⟩ <;>
      norm_num [extract_polygon_coords, maxByKey, polyArea, ringArea, ringDoubleArea,
        poly5, poly20, poly3]

theorem claim2_witness : ∃ l1 l2,
    extract_polygon_coords (Geometry.multiPolygon (poly5 :: [])) =
      Except.ok (maxByKey polyArea poly5 []).exterior ∧
    poly5 :: [] = l1 ++ maxByKey polyArea poly5 [] :: l2 ∧
    (∀ p ∈ poly5 :: [], polyArea p ≤ polyArea (maxByKey polyArea poly5 [])) ∧
    (∀ p ∈ l1, polyArea p < polyArea (maxByKey polyArea poly5 [])) :=
  claim2_amended_largest_by_net_area.1 poly5 []

/-- C3 counterexample: a Polygon whose closed exterior ring has exactly
2 distinct vertices (stored as 5 coordinates) is NOT dropped when the
simplifier falls back to the original ring: the emitted feature has a
5-point degenerate polygon, contradicting the claim that such a region
yields no Feature. -/
theorem claim3_counterexample :
    (cexRing.dedup).length = 2 ∧
    (emittedFeature (processRow implFail "SA3" 0 cex3Row)).map (fun f => f.polygon.length) =
      some 5 := by
  constructor
  · norm_num [cexRing, List.dedup]
  · norm_num [processRow, cex3Row, cexRing, implFail, geomIsEmpty, simplify_geometry,
      extract_polygon_coords, emittedFeature]

/-- C3 (amended): every Feature emitted by the batch processor has a
polygon with at least 3 coordinate points, and a region whose selected
ring has fewer than 3 coordinates after simplification is dropped; the
guard counts stored coordinates, not distinct vertices, so a Polygon
whose exterior list has fewer than 3 entries yields no Feature, while a
closed degenerate ring of 2 distinct vertices stored in 3 or more
coordinates is emitted. -/
theorem claim3_amended_min_coords :
    (∀ (impl : Geometry → ℚ → Except String Geometry) (rows : List Row) (level : String)
       (feats : List Feature), process_geometry impl rows level = Except.ok feats →
       ∀ f ∈ feats, 3 ≤ f.polygon.length) ∧
    (∀ (impl : Geometry → ℚ → Except String Geometry) (level : String) (idx : ℕ) (row : Row)
       (g : Geometry) (coords : List (ℚ × ℚ)),
       row.geometry = some g → geomIsEmpty g = false →
       extract_polygon_coords (simplify_geometry impl g (1/100)) = Except.ok coords →
       coords.length < 3 → processRow impl level idx row = Except.ok none) ∧
    processRow implId "SA3" 0 twoCoordRow = Except.ok none := by
  refine ⟨?_, ?_, ?_⟩
  · intro impl rows level feats h f hf
    obtain ⟨i, r, hmem, hpr⟩ := processAux_mem 0 rows feats h f hf
    exact (processRow_eq_ok_some hpr).2.2.2.2
  · intro impl level idx row g coords hg hne hx hlen
    unfold processRow
    rw [hg]
    dsimp only
    rw [if_neg (by simp [hne]), hx]
    dsimp only
    rw [if_pos hlen]
  · norm_num [processRow, twoCoordRow, implId, geomIsEmpty, simplify_geometry,
      extract_polygon_coords]

theorem claim3_witness : processRow implId "SA3" 0 twoCoordRow = Except.ok none :=
  claim3_amended_min_coords.2.1 implId "SA3" 0 twoCoordRow
    (Geometry.polygon { exterior := [(0,0),(1,1)], holes := [] }) [(0,0),(1,1)]
    rfl rfl rfl (by norm_num)

/-- C7: attribute extraction never aborts the batch (whether an
iteration raises depends only on the row geometry, never on the
attribute columns); the code is taken from the level-specific column if
present, else from the generic `code` column, else synthesized as
`UNKNOWN_<index>`; a region with no code/name columns at batch index 7
yields code `UNKNOWN_7`. -/
theorem claim7_code_fallback :
    (∀ (level : String) (row : Row) (idx : ℕ), resolveCode level row idx =
      match row.get (level ++ "_CODE_2021") with
      | some v => v
      | none =>
        match row.get "code" with
        | some v => v
        | none => "UNKNOWN_" ++ toString idx) ∧
    (∀ (impl : Geometry → ℚ → Except String Geometry) (level : String) (idx : ℕ) (r1 r2 : Row),
      r1.geometry = r2.geometry →
      exceptIsOk (processRow impl level idx r1) = exceptIsOk (processRow impl level idx r2)) ∧
    (emittedFeature (processRow implId "SA3" 7 noAttrRow)).map Feature.code = some "UNKNOWN_7" := by
  refine ⟨?_, ?_, ?_⟩
  · intro level row idx
    unfold resolveCode
    cases row.get (level ++ "_CODE_2021") with
    | some v => rfl
    | none =>
      cases row.get "code" with
      | some v => rfl
      | none => rfl
  · intro impl level idx r1 r2 hgeo
    unfold processRow
    rw [hgeo]
    cases r2.geometry with
    | none => rfl
    | some g =>
      dsimp only
      by_cases he : geomIsEmpty g = true
      · simp only [if_pos he]
      · simp only [if_neg he]
        cases hx : extract_polygon_coords (simplify_geometry impl g (1/100)) with
        | error e => rfl
        | ok coords =>
          dsimp only
          by_cases hlen : coords.length < 3
          · simp only [if_pos hlen]
          · simp only [if_neg hlen]
            rfl
  · rw [processRow_noAttrRow_eval]
    rfl

theorem claim7_witness :
    exceptIsOk (processRow implId "SA3" 7 noAttrRow) =
      exceptIsOk (processRow implId "SA3" 7 altAttrRow) :=
  claim7_code_fallback.2.1 implId "SA3" 7 noAttrRow altAttrRow rfl

/-- C9: every emitted Feature has a `parentSa4` that is never the empty
string; it is null for any level other than SA3 (in particular SA4),
and for SA3 it is null exactly when the `SA4_CODE_2021` attribute is
missing or empty. -/
theorem claim9_parent_sa4 :
    (∀ (impl : Geometry → ℚ → Except String Geometry) (rows : List Row) (level : String)
       (feats : List Feature), process_geometry impl rows level = Except.ok feats →
       ∀ f ∈ feats, f.parentSa4 ≠ some "") ∧
    (∀ (impl : Geometry → ℚ → Except String Geometry) (level : String) (idx : ℕ) (row : Row)
       (f : Feature), processRow impl level idx row = Except.ok (some f) →
       (level = "SA4" → f.parentSa4 = none) ∧
       (level = "SA3" → (f.parentSa4 = none ↔
         (row.get "SA4_CODE_2021" = none ∨ row.get "SA4_CODE_2021" = some "")))) := by
  constructor
  · intro impl rows level feats h f hf
    obtain ⟨i, r, hmem, hpr⟩ := processAux_mem 0 rows feats h f hf
    rw [(processRow_eq_ok_some hpr).2.2.2.1]
    exact finalParent_ne_empty _
  · intro impl level idx row f h
    have hp := (processRow_eq_ok_some h).2.2.2.1
    constructor
    · intro hlev
      subst hlev
      rw [hp]
      simp [resolveParentSa4, finalParent]
    · intro hlev
      subst hlev
      rw [hp]
      unfold resolveParentSa4
      rw [if_pos rfl]
      cases hg : row.get "SA4_CODE_2021" with
      | none => simp [finalParent]
      | some v =>
        by_cases hv : v = ""
        · subst hv
          simp [finalParent]
        · simp [finalParent, hv]

theorem claim9_witness :
    ("SA3" = "SA4" → featC9.parentSa4 = none) ∧
    ("SA3" = "SA3" → (featC9.parentSa4 = none ↔
      (c9Row.get "SA4_CODE_2021" = none ∨ c9Row.get "SA4_CODE_2021" = some ""))) :=
  claim9_parent_sa4.2 implId "SA3" 0 c9Row featC9 processRow_c9Row_eval

/-- C10: for every processed region, when both the level-specific name
column and the generic `name` column are absent, the Feature name
equals its resolved code; and when both `STE_CODE_2021` and the generic
`state` column are absent, the Feature state is the literal string
`UNKNOWN` with no index suffix. -/
theorem claim10_name_state_fallback :
    ∀ (impl : Geometry → ℚ → Except String Geometry) (level : String) (idx : ℕ) (row : Row)
      (f : Feature), processRow impl level idx row = Except.ok (some f) →
      (row.get (level ++ "_NAME_2021") = none → row.get "name" = none → f.name = f.code) ∧
      (row.get "STE_CODE_2021" = none → row.get "state" = none → f.state = "UNKNOWN") := by
  intro impl level idx row f h
  obtain ⟨hcode, hname, hstate, -, -⟩ := processRow_eq_ok_some h
  constructor
  · intro h1 h2
    rw [hname, hcode]
    unfold resolveName
    rw [h1, h2]
    rfl
  · intro h1 h2
    rw [hstate]
    unfold resolveState
    rw [h1, h2]
    rfl

theorem claim10_witness :
    featUnknown7.name = featUnknown7.code ∧ featUnknown7.state = "UNKNOWN" := by
  have h := claim10_name_state_fallback implId "SA3" 7 noAttrRow featUnknown7
    processRow_noAttrRow_eval
  exact ⟨h.1 rfl rfl, h.2 rfl rfl⟩

theorem unknown_prefixed_ne_empty (idx : ℕ) : "UNKNOWN_" ++ toString idx ≠ "" := by
  intro h
  have hlen := congrArg String.length h
  rw [String.length_append] at hlen
  have h8 : ("UNKNOWN_" : String).length = 8 := by decide
  have h0 : ("" : String).length = 0 := rfl
  rw [h8, h0] at hlen
  omega

theorem resolveCode_ne_empty {level : String} {row : Row} {idx : ℕ}
    (hattrs : ∀ kv ∈ row.attrs, kv.2 ≠ "") : resolveCode level row idx ≠ "" := by
  unfold resolveCode
  cases h1 : row.get (level ++ "_CODE_2021") with
  | some v =>
    have hv := hattrs _ (lookupAttr_mem h1)
    simpa using hv
  | none =>
    cases h2 : row.get "code" with
    | some v =>
      have hv := hattrs _ (lookupAttr_mem h2)
      simpa using hv
    | none => simpa using unknown_prefixed_ne_empty idx

theorem resolveName_ne_empty {level : String} {row : Row} {code : String}
    (hattrs : ∀ kv ∈ row.attrs, kv.2 ≠ "") (hcode : code ≠ "") :
    resolveName level row code ≠ "" := by
  unfold resolveName
  cases h1 : row.get (level ++ "_NAME_2021") with
  | some v =>
    have hv := hattrs _ (lookupAttr_mem h1)
    simpa using hv
  | none =>
    cases h2 : row.get "name" with
    | some v =>
      have hv := hattrs _ (lookupAttr_mem h2)
      simpa using hv
    | none => simpa using hcode

theorem resolveState_ne_empty {row : Row}
    (hattrs : ∀ kv ∈ row.attrs, kv.2 ≠ "") : resolveState row ≠ "" := by
  unfold resolveState
  cases h1 : row.get "STE_CODE_2021" with
  | some v =>
    have hv := hattrs _ (lookupAttr_mem h1)
    simpa using hv
  | none =>
    cases h2 : row.get "state" with
    | some v =>
      have hv := hattrs _ (lookupAttr_mem h2)
      simpa using hv
    | none =>
      simp only [Option.getD_none]
      decide

/-- The feature emitted for `cex8Row`: its code is the empty string. -/
def featEmptyCode : Feature :=
  { code := "", name := "", state := "UNKNOWN", parentSa4 := none,
    polygon := [(0,0),(1000,0),(0,760),(0,0)] }

/-- Evaluation of the pipeline on the region whose level-specific code
column holds the empty string. -/
theorem processRow_cex8Row_eval :
    processRow implId "SA3" 0 cex8Row = Except.ok (some featEmptyCode) := by
  norm_num [processRow, cex8Row, implId, witnessRing, geomIsEmpty, simplify_geometry,
    extract_polygon_coords, resolveCode, resolveName, resolveState, resolveParentSa4,
    finalParent, Row.get, lookupAttr, project_to_svg, round2, roundHalfEven,
    AUSTRALIA_BBOX, SVG_WIDTH, SVG_HEIGHT, featEmptyCode]
  decide

/-- C8 counterexample: a region whose geometry is a valid 4-coordinate
ring but whose `SA3_CODE_2021` column holds the empty string is emitted
as a Feature whose code (and name) is the empty string, contradicting
the claim that code/name/state are always non-empty. -/
theorem claim8_counterexample :
    (emittedFeature (processRow implId "SA3" 0 cex8Row)).map Feature.code = some "" ∧
    (emittedFeature (processRow implId "SA3" 0 cex8Row)).map (fun f => f.polygon.length) =
      some 4 := by
  rw [processRow_cex8Row_eval]
  exact ⟨rfl, rfl⟩

/-- C8 (amended): for every valid GeoRegion whose simplified
representative ring has at least 3 coordinates, the builder returns a
Feature whose polygon has at least 3 points; its code, name and state
are non-empty provided every attribute value present in the region row
is non-empty (the synthesized fallbacks `UNKNOWN_<index>` and `UNKNOWN`
are always non-empty, but an explicitly empty attribute value is
propagated verbatim). -/
theorem claim8_amended_nonempty_fields (impl : Geometry → ℚ → Except String Geometry)
    (level : String) (idx : ℕ) (row : Row) (g : Geometry) (coords : List (ℚ × ℚ))
    (hg : row.geometry = some g) (hne : geomIsEmpty g = false)
    (hx : extract_polygon_coords (simplify_geometry impl g (1/100)) = Except.ok coords)
    (hlen : 3 ≤ coords.length)
    (hattrs : ∀ kv ∈ row.attrs, kv.2 ≠ "") :
    ∃ f, processRow impl level idx row = Except.ok (some f) ∧
      3 ≤ f.polygon.length ∧ f.code ≠ "" ∧ f.name ≠ "" ∧ f.state ≠ "" := by
  have hnl : ¬ coords.length < 3 := by omega
  refine ⟨{ code := resolveCode level row idx,
            name := resolveName level row (resolveCode level row idx),
            state := resolveState row,
            parentSa4 := finalParent (resolveParentSa4 level row),
            polygon := coords.map (fun c => project_to_svg c.1 c.2) }, ?_, ?_, ?_, ?_, ?_⟩
  · unfold processRow
    rw [hg]
    dsimp only
    rw [if_neg (by simp [hne]), hx]
    dsimp only
    rw [if_neg hnl]
  · simp only [List.length_map]
    omega
  · exact resolveCode_ne_empty hattrs
  · exact resolveName_ne_empty hattrs (resolveCode_ne_empty hattrs)
  · exact resolveState_ne_empty hattrs

theorem claim8_witness :
    ∃ f, processRow implId "SA3" 0 c8GoodRow = Except.ok (some f) ∧
      3 ≤ f.polygon.length ∧ f.code ≠ "" ∧ f.name ≠ "" ∧ f.state ≠ "" :=
  claim8_amended_nonempty_fields implId "SA3" 0 c8GoodRow
    (Geometry.polygon { exterior := witnessRing, holes := [] }) witnessRing
    rfl rfl rfl (by norm_num [witnessRing])
    (by
      intro kv hkv
      simp only [c8GoodRow, List.mem_cons, List.not_mem_nil, or_false] at hkv
      rcases hkv with rfl | rfl <;> decide)

end ExtractAsgs
